import Mathlib

/-!
Verification of the streaming chat-completion client
(crates/ollama/src/ollama.rs and crates/ollama/src/ollama_direct.rs).

The Rust code is shallowly embedded: the line framer and delta decoder loop
that both transports run is modelled as a pure function over the list of
byte chunks the transport reads; the JSON decoder (serde_json::from_str into
ChatResponseDelta) is modelled as an abstract parameter, since every claim
about the pipeline is independent of the concrete JSON grammar.  Buffers are
lists of characters (the Rust code keeps the buffer in a String), and the
lossy UTF-8 conversion applied to every read chunk is modelled explicitly.
-/

namespace Ollama

/-! ## Basic list utilities used by the embedding -/

/-- Boolean prefix test on character lists, mirroring Rust str::starts_with. -/
def listStartsWith : List Char → List Char → Bool
  | _, [] => true
  | [], _ :: _ => false
  | a :: as, b :: bs => a = b && listStartsWith as bs

/-- Boolean substring test on character lists, mirroring Rust str::contains. -/
def listContains : List Char → List Char → Bool
  | hay, pat =>
    if listStartsWith hay pat then true
    else
      match hay with
      | [] => false
      | _ :: t => listContains t pat

/-- Boolean suffix test on character lists, mirroring Rust str::ends_with. -/
def listEndsWith (l s : List Char) : Bool :=
  listStartsWith l.reverse s.reverse

/-- Rust str::strip_suffix: when the suffix matches, the string minus the
suffix, otherwise nothing. -/
def stripSuffixChars (l s : List Char) : Option (List Char) :=
  if listEndsWith l s then some (l.take (l.length - s.length)) else none

/-! ## Line framer (crates/ollama/src/ollama.rs lines 638-678,
crates/ollama/src/ollama_direct.rs lines 105-182)

The Rust loop repeatedly searches the buffer for a newline; each complete
line is split off, trimmed, and skipped when it is empty or consists solely
of ASCII hex digits (a chunked-transfer-encoding size marker); surviving
lines are handed to the JSON decoder, whose failures are dropped.  When no
newline remains the loop reads the next chunk and appends it to the buffer;
a zero-length read (EOF) ends the loop, discarding the trailing partial
line.  splitLines computes, structurally, the complete lines of a buffer
plus the trailing remainder; the lemma splitLines_eq_findStep below proves
it satisfies exactly the find-first-newline recurrence of the source. -/

/-- All complete (newline-terminated) lines of a buffer, with the trailing
remainder that has no newline. -/
def splitLines : List Char → List (List Char) × List Char
  | [] => ([], [])
  | c :: rest =>
    let p := splitLines rest
    if c = '\n' then ([] :: p.1, p.2)
    else
      match p.1 with
      | [] => ([], c :: p.2)
      | l :: ls => ((c :: l) :: ls, p.2)

/-- The source's buffer.find of a newline followed by the split at it:
the first complete line and the rest of the buffer, if any newline exists. -/
def splitAtNewline : List Char → Option (List Char × List Char)
  | [] => none
  | c :: rest =>
    if c = '\n' then some ([], rest)
    else (splitAtNewline rest).map (fun p => (c :: p.1, p.2))

/-- Rust str::trim on a character list: whitespace removed from both ends. -/
def trimChars (l : List Char) : List Char :=
  ((l.dropWhile Char.isWhitespace).reverse.dropWhile Char.isWhitespace).reverse

/-- Rust char::is_ascii_hexdigit. -/
def isAsciiHexDigitB (c : Char) : Bool :=
  c.isDigit || ('a' ≤ c && c ≤ 'f') || ('A' ≤ c && c ≤ 'F')

/-- The per-line filter of the loop: trim, skip if empty, skip if every
character is an ASCII hex digit; otherwise the trimmed line goes on to the
decoder. -/
def keptLine (l : List Char) : Option (List Char) :=
  let t := trimChars l
  if t.isEmpty then none
  else if t.all isAsciiHexDigitB then none
  else some t

/-- The full per-line step of the loop: the filter above followed by the
JSON decode, whose failure drops the line. -/
def lineStep {δ : Type} (decode : List Char → Option δ) (l : List Char) :
    Option δ :=
  (keptLine l).bind decode

/-- Concatenation of all chunks a transport reads. -/
def joinChunks : List (List Char) → List Char
  | [] => []
  | c :: cs => c ++ joinChunks cs

/-- The lines the framer forwards to the decoder, as a function of the
chunks read and the initial buffer contents (the bytes left over after the
header/body separator): drain every complete line of the buffer, then read
the next chunk; end at EOF with the trailing partial line discarded. -/
def frameLines : List (List Char) → List Char → List (List Char)
  | [], buf => (splitLines buf).1.filterMap keptLine
  | c :: cs, buf =>
    (splitLines buf).1.filterMap keptLine ++ frameLines cs ((splitLines buf).2 ++ c)

/-- The deltas the loop publishes: the same frame loop with the decoder
applied to every forwarded line, decode failures dropped. -/
def streamDeltas {δ : Type} (decode : List Char → Option δ) :
    List (List Char) → List Char → List δ
  | [], buf => (splitLines buf).1.filterMap (lineStep decode)
  | c :: cs, buf =>
    (splitLines buf).1.filterMap (lineStep decode) ++
      streamDeltas decode cs ((splitLines buf).2 ++ c)

/-! ## Fidelity of splitLines to the source loop -/

theorem splitLines_eq_findStep (buf : List Char) :
    splitLines buf =
      match splitAtNewline buf with
      | some p => (p.1 :: (splitLines p.2).1, (splitLines p.2).2)
      | none => ([], buf) := by
  induction buf with
  | nil => rfl
  | cons c rest ih =>
    by_cases h : c = '\n'
    · subst h
      simp [splitLines, splitAtNewline]
    · simp only [splitLines, splitAtNewline, if_neg h]
      rw [ih]
      cases hs : splitAtNewline rest with
      | none =>
        simp [hs]
      | some p =>
        simp [hs, Option.map_some]

/-- Splitting a concatenation: the lines of the first part, then the lines
of its remainder glued to the second part. -/
theorem splitLines_append (a b : List Char) :
    splitLines (a ++ b) =
      ((splitLines a).1 ++ (splitLines ((splitLines a).2 ++ b)).1,
        (splitLines ((splitLines a).2 ++ b)).2) := by
  induction a with
  | nil => simp [splitLines]
  | cons c a ih =>
    by_cases h : c = '\n'
    · subst h
      simp [splitLines, ih]
    · simp only [List.cons_append, splitLines, if_neg h, List.append_eq]
      rw [ih]
      cases hp : (splitLines a).1 with
      | nil =>
        cases hq : (splitLines ((splitLines a).2 ++ b)).1 with
        | nil => simp [splitLines, if_neg h, hp, hq, List.append_eq]
        | cons l ls => simp [splitLines, if_neg h, hp, hq, List.append_eq]
      | cons l ls => simp [splitLines, if_neg h, hp, List.append_eq]

/-- The frame loop over a chunk list equals the line splitting of the whole
input (initial buffer followed by every chunk), with the trailing partial
line discarded. -/
theorem frameLines_eq_splitLines (chunks : List (List Char)) (buf : List Char) :
    frameLines chunks buf =
      ((splitLines (buf ++ joinChunks chunks)).1).filterMap keptLine := by
  induction chunks generalizing buf with
  | nil => simp [frameLines, joinChunks]
  | cons c cs ih =>
    simp only [frameLines, joinChunks]
    rw [ih ((splitLines buf).2 ++ c)]
    rw [show (splitLines buf).2 ++ c ++ joinChunks cs
          = (splitLines buf).2 ++ (c ++ joinChunks cs) by simp]
    rw [show buf ++ (c ++ joinChunks cs)
          = buf ++ (c ++ joinChunks cs) from rfl]
    rw [splitLines_append buf (c ++ joinChunks cs)]
    rw [List.filterMap_append]

/-- The published deltas are exactly the framed lines run through the
decoder: the interleaved loop factors as framing followed by decoding. -/
theorem streamDeltas_eq_filterMap {δ : Type} (decode : List Char → Option δ)
    (chunks : List (List Char)) (buf : List Char) :
    streamDeltas decode chunks buf = (frameLines chunks buf).filterMap decode := by
  induction chunks generalizing buf with
  | nil =>
    simp only [streamDeltas, frameLines]
    rw [List.filterMap_filterMap]
    rfl
  | cons c cs ih =>
    simp only [streamDeltas, frameLines, List.filterMap_append]
    rw [ih, List.filterMap_filterMap]
    rfl

/-! ## Lossy UTF-8 decoding of read chunks

Both reader loops convert every chunk of bytes read from the socket or the
response body with String::from_utf8_lossy before appending it to the text
buffer (ollama.rs lines 396, 558, 668; ollama_direct.rs lines 64, 168).
Rust replaces every maximal invalid subpart of the byte sequence with one
U+FFFD replacement character; in particular a multi-byte character whose
bytes are split across two chunks is decoded as replacement characters,
because each chunk is converted on its own. -/

/-- The U+FFFD replacement character. -/
def replChar : Char := Char.ofNat 0xFFFD

/-- A UTF-8 continuation byte. -/
def isCont (b : Nat) : Bool := 0x80 ≤ b && b ≤ 0xBF

/-- Valid range of the second byte of a three-byte sequence, per lead byte
(E0 excludes overlong encodings, ED excludes surrogates). -/
def isCont3 (b c : Nat) : Bool :=
  if b = 0xE0 then 0xA0 ≤ c && c ≤ 0xBF
  else if b = 0xED then 0x80 ≤ c && c ≤ 0x9F
  else isCont c

/-- Valid range of the second byte of a four-byte sequence, per lead byte
(F0 excludes overlong encodings, F4 caps at U+10FFFF). -/
def isCont4 (b c : Nat) : Bool :=
  if b = 0xF0 then 0x90 ≤ c && c ≤ 0xBF
  else if b = 0xF4 then 0x80 ≤ c && c ≤ 0x8F
  else isCont c

/-- Rust String::from_utf8_lossy: decode bytes to characters, replacing
every maximal invalid subpart with one U+FFFD. -/
def utf8Lossy : List Nat → List Char
  | [] => []
  | b :: rest =>
    if b < 0x80 then Char.ofNat b :: utf8Lossy rest
    else if 0xC2 ≤ b && b ≤ 0xDF then
      match rest with
      | [] => [replChar]
      | c1 :: rest1 =>
        if isCont c1 then
          Char.ofNat ((b - 0xC0) * 64 + (c1 - 0x80)) :: utf8Lossy rest1
        else replChar :: utf8Lossy (c1 :: rest1)
    else if 0xE0 ≤ b && b ≤ 0xEF then
      match rest with
      | [] => [replChar]
      | c1 :: rest1 =>
        if isCont3 b c1 then
          match rest1 with
          | [] => [replChar]
          | c2 :: rest2 =>
            if isCont c2 then
              Char.ofNat ((b - 0xE0) * 4096 + (c1 - 0x80) * 64 + (c2 - 0x80)) ::
                utf8Lossy rest2
            else replChar :: utf8Lossy (c2 :: rest2)
        else replChar :: utf8Lossy (c1 :: rest1)
    else if 0xF0 ≤ b && b ≤ 0xF4 then
      match rest with
      | [] => [replChar]
      | c1 :: rest1 =>
        if isCont4 b c1 then
          match rest1 with
          | [] => [replChar]
          | c2 :: rest2 =>
            if isCont c2 then
              match rest2 with
              | [] => [replChar]
              | c3 :: rest3 =>
                if isCont c3 then
                  Char.ofNat
                      ((b - 0xF0) * 262144 + (c1 - 0x80) * 4096 +
                        (c2 - 0x80) * 64 + (c3 - 0x80)) ::
                    utf8Lossy rest3
                else replChar :: utf8Lossy (c3 :: rest3)
            else replChar :: utf8Lossy (c2 :: rest2)
        else replChar :: utf8Lossy (c1 :: rest1)
    else replChar :: utf8Lossy rest

/-- The framer as run on raw byte chunks: each chunk is lossily decoded on
its own, exactly as in the source, then fed to the frame loop. -/
def frameBytes (chunks : List (List Nat)) : List (List Char) :=
  frameLines (chunks.map utf8Lossy) []

/-! ## Transport selection (ollama.rs lines 581-611) -/

/-- The two transport strategies of stream_chat_completion. -/
inductive Transport where
  | rawSocket
  | httpClient
deriving DecidableEq

/-- The is_local test of stream_chat_completion (ollama.rs lines 581-583):
a textual heuristic on the endpoint URL. -/
def isLocalUrl (url : String) : Bool :=
  listStartsWith url.data "http://localhost".data ||
    listStartsWith url.data "http://127.0.0.1".data ||
    (listStartsWith url.data "http://".data && listContains url.data "localhost".data)

/-- The routing decision of stream_chat_completion (ollama.rs line 587):
the raw-socket path when is_local holds and no API key is given, else the
HTTP-client path. -/
def selectTransport (url : String) (apiKey : Option String) : Transport :=
  if isLocalUrl url && apiKey.isNone then Transport.rawSocket
  else Transport.httpClient

/-- Follows the wording of the spec (section 4.2), for comparison with the
code's heuristic: the host part of the endpoint URL, i.e. the text after
the scheme up to the first colon or slash. -/
def urlHostSpec (url : String) : String :=
  let rest :=
    if listStartsWith url.data "http://".data then url.data.drop 7 else url.data
  String.mk (rest.takeWhile (fun c => c != ':' && c != '/'))

/-- Follows the wording of the spec (section 4.2): an endpoint is
loop-back/local-host when its host is localhost or 127.0.0.1. -/
def isLoopbackEndpointSpec (url : String) : Bool :=
  urlHostSpec url == "localhost" || urlHostSpec url == "127.0.0.1"

/-! ## Data model (ollama.rs lines 8-199) -/

/-- Modelled from the spec: the keep-alive policy type comes from the
settings crate, which is not among the sources; per the spec's glossary it
is a directive for how long the server retains a loaded model in memory,
with an indefinite variant that Model::new installs on every resolved
model. -/
inductive KeepAlive where
  | indefinite
  | forSeconds (seconds : Int)
deriving DecidableEq

/-- A JSON value, as produced by the serde serialization of requests
(serde_json::Value for tool-call arguments). -/
inductive JVal where
  | null
  | bool (b : Bool)
  | num (n : Int)
  | str (s : String)
  | arr (elems : List JVal)
  | obj (fields : List (String × JVal))

/-- OllamaFunctionCall (ollama.rs lines 112-116). -/
structure OllamaFunctionCall where
  name : String
  arguments : JVal

/-- OllamaToolCall (ollama.rs lines 104-110): the id is optional for
compatibility with servers older than v0.12.10. -/
structure OllamaToolCall where
  id : Option String
  function : OllamaFunctionCall

/-- ChatMessage (ollama.rs lines 80-102): a role-tagged union.  Only the
images field of the Assistant and User variants carries
serde(skip_serializing_if = Option::is_none). -/
inductive ChatMessage where
  | assistant (content : String) (tool_calls : Option (List OllamaToolCall))
      (images : Option (List String)) (thinking : Option String)
  | user (content : String) (images : Option (List String))
  | system (content : String)
  | tool (tool_name : String) (content : String)

/-- ChatResponseDelta (ollama.rs lines 152-161): one decoded NDJSON
record. -/
structure ChatResponseDelta where
  model : String
  created_at : String
  message : ChatMessage
  done_reason : Option String
  done : Bool
  prompt_eval_count : Option Nat
  eval_count : Option Nat

/-- Model (ollama.rs lines 10-20). -/
structure Model where
  name : String
  display_name : Option String
  max_tokens : Nat
  keep_alive : Option KeepAlive
  supports_tools : Option Bool
  supports_vision : Option Bool
  supports_thinking : Option Bool

/-! ## Model catalog (ollama.rs lines 22-78) -/

/-- Rust u64::clamp(1, MAXIMUM_TOKENS) with MAXIMUM_TOKENS = 16384
(ollama.rs lines 27, 42). -/
def clampTokens (v : Nat) : Nat := Nat.min (Nat.max v 1) 16384

/-- The family-prefix table of get_max_tokens (ollama.rs lines 29-41),
applied to the text before the first colon; unmatched families get
DEFAULT_TOKENS = 4096. -/
def tableLookup (f : String) : Nat :=
  if f = "granite-code" ∨ f = "phi" ∨ f = "tinyllama" then 2048
  else if f = "llama2" ∨ f = "stablelm2" ∨ f = "vicuna" ∨ f = "yi" then 4096
  else if f = "aya" ∨ f = "codegemma" ∨ f = "gemma" ∨ f = "gemma2" ∨
      f = "llama3" ∨ f = "starcoder" then 8192
  else if f = "codellama" ∨ f = "starcoder2" then 16384
  else if f = "codestral" ∨ f = "dolphin-mixtral" ∨ f = "llava" ∨
      f = "magistral" ∨ f = "mistral" ∨ f = "mixstral" ∨ f = "qwen2" ∨
      f = "qwen2.5-coder" then 32768
  else if f = "cogito" ∨ f = "command-r" ∨ f = "deepseek-coder-v2" ∨
      f = "deepseek-r1" ∨ f = "deepseek-v3" ∨ f = "devstral" ∨ f = "gemma3" ∨
      f = "gpt-oss" ∨ f = "granite3.3" ∨ f = "llama3.1" ∨ f = "llama3.2" ∨
      f = "llama3.3" ∨ f = "mistral-nemo" ∨ f = "phi3" ∨ f = "phi3.5" ∨
      f = "phi4" ∨ f = "qwen3" ∨ f = "yi-coder" then 128000
  else if f = "qwen3-coder" then 256000
  else 4096

/-- Rust str::split(colon) on a character list: always at least one piece,
the empty string splitting to one empty piece. -/
def splitColon : List Char → List (List Char)
  | [] => [[]]
  | c :: rest =>
    if c = ':' then [] :: splitColon rest
    else
      match splitColon rest with
      | [] => [[c]]
      | l :: ls => (c :: l) :: ls

/-- get_max_tokens as written in the source (ollama.rs lines 22-43): the
first piece of name.split(colon) is taken with next().unwrap(); the unwrap
is modelled by an Option, none standing for a panic. -/
def get_max_tokens_checked (name : String) : Option Nat :=
  match (splitColon name.data).head? with
  | none => none
  | some fam => some (clampTokens (tableLookup (String.mk fam)))

/-- The text of a model name before the first colon. -/
def familyOf (name : String) : String :=
  String.mk (name.data.takeWhile (fun c => c != ':'))

/-- get_max_tokens as a total function; the theorem for claim C9 proves it
agrees with get_max_tokens_checked on every name, i.e. the unwrap in the
source never panics. -/
def get_max_tokens (name : String) : Nat :=
  clampTokens (tableLookup (familyOf name))

/-- Rust str::strip_suffix of the literal latest tag, used for the default
display name. -/
def stripLatest (name : String) : Option String :=
  (stripSuffixChars name.data ":latest".data).map String.mk

/-- Model::new (ollama.rs lines 46-65). -/
def Model.new (name : String) (display_name : Option String)
    (max_tokens : Option Nat) (supports_tools supports_vision
    supports_thinking : Option Bool) : Model :=
  { name := name
    display_name := (display_name.map id).orElse (fun _ => stripLatest name)
    max_tokens := max_tokens.getD (get_max_tokens name)
    keep_alive := some KeepAlive.indefinite
    supports_tools := supports_tools
    supports_vision := supports_vision
    supports_thinking := supports_thinking }

/-! ## Serialization of ChatMessage (ollama.rs lines 80-102)

serde serializes the tagged enum as an object holding the role tag first
and then the variant's fields in declaration order; an Option field without
a skip_serializing_if attribute serializes none as null; only the images
fields carry skip_serializing_if = Option::is_none and are omitted when
absent. -/

/-- Serialization of an optional string field without a skip attribute:
none becomes null. -/
def jsonOfOptString : Option String → JVal
  | none => JVal.null
  | some s => JVal.str s

/-- Serialization of an images payload. -/
def jsonOfImages (imgs : List String) : JVal :=
  JVal.arr (imgs.map JVal.str)

/-- Serialization of one tool call: both fields serialize unconditionally,
an absent id becoming null. -/
def jsonOfToolCall (tc : OllamaToolCall) : JVal :=
  JVal.obj
    [("id", jsonOfOptString tc.id),
      ("function",
        JVal.obj
          [("name", JVal.str tc.function.name),
            ("arguments", tc.function.arguments)])]

/-- Serialization of the tool_calls field, which has no skip attribute:
none becomes null. -/
def jsonOfToolCalls : Option (List OllamaToolCall) → JVal
  | none => JVal.null
  | some tcs => JVal.arr (tcs.map jsonOfToolCall)

/-- The serialized key-value pairs of a ChatMessage, in serde's order. -/
def serializeChatMessage : ChatMessage → List (String × JVal)
  | .assistant content tool_calls images thinking =>
    [("role", JVal.str "assistant"), ("content", JVal.str content),
        ("tool_calls", jsonOfToolCalls tool_calls)] ++
      (match images with
        | some imgs => [("images", jsonOfImages imgs)]
        | none => []) ++
      [("thinking", jsonOfOptString thinking)]
  | .user content images =>
    [("role", JVal.str "user"), ("content", JVal.str content)] ++
      (match images with
        | some imgs => [("images", jsonOfImages imgs)]
        | none => [])
  | .system content =>
    [("role", JVal.str "system"), ("content", JVal.str content)]
  | .tool tool_name content =>
    [("role", JVal.str "tool"), ("tool_name", JVal.str tool_name),
      ("content", JVal.str content)]

/-! ## The caller-facing sequence (ollama.rs lines 573-692)

stream_chat_completion routes once, then: on the raw-socket path it spawns
the console reader thread and returns futures::stream::empty(), so the
caller's sequence holds no delta at all (ollama.rs lines 601-609); on the
HTTP-client path the reader thread runs the frame/decode loop over the
response body and every successful decode is sent over the channel that
backs the returned sequence (ollama.rs lines 633-681). -/

/-- The list of deltas the sequence returned by stream_chat_completion
yields, as a function of the routing inputs and the body chunks the chosen
transport would read. -/
def stream_chat_completion (decode : List Char → Option ChatResponseDelta)
    (apiUrl : String) (apiKey : Option String)
    (bodyChunks : List (List Char)) : List ChatResponseDelta :=
  match selectTransport apiUrl apiKey with
  | Transport.rawSocket => []
  | Transport.httpClient => streamDeltas decode bodyChunks []

/-- True when no delta follows the first record whose done flag is set. -/
def noDeltaAfterDone : List ChatResponseDelta → Bool
  | [] => true
  | d :: rest => if d.done then rest.isEmpty else noDeltaAfterDone rest

/-! ## Sample data for concrete evaluations -/

/-- A minimal assistant message fragment. -/
def sampleMessage : ChatMessage :=
  ChatMessage.assistant "" none none none

/-- A delta record with the given model id and done flag. -/
def mkDelta (m : String) (done : Bool) : ChatResponseDelta :=
  { model := m, created_at := "", message := sampleMessage,
    done_reason := none, done := done, prompt_eval_count := none,
    eval_count := none }

/-- A non-terminal sample delta. -/
def deltaX : ChatResponseDelta := mkDelta "x" false

/-- A second non-terminal sample delta. -/
def deltaZ : ChatResponseDelta := mkDelta "z" false

/-- A terminal sample delta, done flag set. -/
def deltaDone : ChatResponseDelta := mkDelta "d" true

/-- A concrete decoder: the line x decodes to deltaX, the line z to deltaZ,
anything else fails to decode. -/
def decodeSample (l : List Char) : Option ChatResponseDelta :=
  if l = ['x'] then some deltaX
  else if l = ['z'] then some deltaZ
  else none

/-- A concrete decoder whose first record is terminal: the line x decodes
to deltaDone, the line z to deltaZ. -/
def decodeDoneSample (l : List Char) : Option ChatResponseDelta :=
  if l = ['x'] then some deltaDone
  else if l = ['z'] then some deltaZ
  else none

/-! ## Further helper lemmas -/

/-- Splitting a buffer that is a newline-free line, a newline and a rest:
the line comes off whole. -/
theorem splitLines_cons_line (l r : List Char)
    (h : l.all (fun c => c != '\n') = true) :
    splitLines (l ++ '\n' :: r) = (l :: (splitLines r).1, (splitLines r).2) := by
  induction l with
  | nil => simp [splitLines]
  | cons c cl ih =>
    have hc : (c != '\n') = true := by
      have := List.all_eq_true.mp h c (List.mem_cons_self c cl)
      exact this
    have hcl : cl.all (fun c => c != '\n') = true := by
      refine List.all_eq_true.mpr fun x hx => ?_
      exact List.all_eq_true.mp h x (List.mem_cons_of_mem c hx)
    have hne : ¬c = '\n' := by simpa using hc
    simp only [List.cons_append, splitLines, if_neg hne, List.append_eq,
      ih hcl]

/-- The head of Rust split on colon is the text before the first colon:
the source's next().unwrap() always succeeds and yields exactly that
text. -/
theorem splitColon_head (l : List Char) :
    (splitColon l).head? = some (l.takeWhile (fun c => c != ':')) := by
  induction l with
  | nil => rfl
  | cons c rest ih =>
    by_cases h : c = ':'
    · subst h
      simp [splitColon, List.takeWhile_cons]
    · simp only [splitColon, if_neg h]
      cases hs : splitColon rest with
      | nil => rw [hs] at ih; simp at ih
      | cons w ws =>
        rw [hs] at ih
        simp only [List.head?] at ih
        have hw : w = rest.takeWhile (fun c => c != ':') := by
          injection ih
        simp [List.takeWhile_cons, h, hw]

/-! ## The claims -/

/-- Claim C1, counterexample: a request routed to the raw-socket path
(local endpoint, no credential) returns the empty sequence even when the
response body holds a line that decodes successfully, while the shared
frame/decode loop over that same body yields the delta; so the caller's
sequence does not receive the successfully decoded deltas on the raw
path. -/
theorem c1_counterexample :
    stream_chat_completion decodeSample "http://localhost:11434" none
        [['x', '\n']] = [] ∧
      streamDeltas decodeSample [['x', '\n']] [] = [deltaX] ∧
      [deltaX] ≠ ([] : List ChatResponseDelta) := by
  refine ⟨rfl, rfl, ?_⟩
  exact List.cons_ne_nil _ _

/-- Claim C1, amended: every request routed to the raw-socket path returns
the empty sequence, whatever the response body holds — the raw-path reader
thread only logs decoded deltas to the console and
stream_chat_completion returns futures::stream::empty(); only the
HTTP-client path publishes the decoded deltas to the caller. -/
theorem c1_raw_path_publishes_nothing
    (decode : List Char → Option ChatResponseDelta) (url : String)
    (key : Option String) (chunks : List (List Char))
    (h : selectTransport url key = Transport.rawSocket) :
    stream_chat_completion decode url key chunks = [] := by
  unfold stream_chat_completion
  rw [h]

/-- Claim C1, witness: the theorem applied to the default local endpoint
with no credential. -/
theorem c1_witness :
    selectTransport "http://localhost:11434" none = Transport.rawSocket ∧
      stream_chat_completion decodeSample "http://localhost:11434" none
        [['x', '\n']] = [] :=
  ⟨by decide,
    c1_raw_path_publishes_nothing decodeSample "http://localhost:11434" none
      [['x', '\n']] (by decide)⟩

/-- Claim C2, counterexample: on the HTTP-client path, a body whose first
record has the done flag set still yields the following record — the loop
never inspects done, so the sequence does not end immediately after the
terminal record. -/
theorem c2_counterexample :
    stream_chat_completion decodeDoneSample "https://example.com" none
        [['x', '\n', 'z', '\n']] = [deltaDone, deltaZ] ∧
      deltaDone.done = true ∧
      noDeltaAfterDone
        (stream_chat_completion decodeDoneSample "https://example.com" none
          [['x', '\n', 'z', '\n']]) = false := by
  exact ⟨rfl, rfl, rfl⟩

/-- Claim C2, amended: the loop never inspects the done flag (or any other
field of a decoded delta): post-composing the decoder with an arbitrary
rewrite of the decoded records — for example one that flips done — commutes
with the whole pipeline, so control flow is independent of the records'
contents, every decoded record is yielded, and the sequence ends only when
the byte source is exhausted. -/
theorem c2_pipeline_ignores_done {δ δ2 : Type} (f : δ → δ2)
    (decode : List Char → Option δ) (chunks : List (List Char))
    (buf : List Char) :
    streamDeltas (fun l => (decode l).map f) chunks buf =
      (streamDeltas decode chunks buf).map f := by
  rw [streamDeltas_eq_filterMap, streamDeltas_eq_filterMap,
    List.map_filterMap]

/-- Claim C3, counterexample: a caller-supplied max-token count is used
unclamped by Model::new, so the resulting max_tokens can exceed the 16384
ceiling. -/
theorem c3_counterexample :
    (Model.new "llama3.2" none (some 100000) none none none).max_tokens
        = 100000 ∧
      ¬(Model.new "llama3.2" none (some 100000) none none none).max_tokens
        ≤ 16384 := by
  decide

/-- Claim C3, amended: only the value derived from the family-prefix table
is clamped to the interval of 1 to 16384; a caller-supplied count is
installed unchanged, and absent a caller-supplied count the table-derived
clamped value is used. -/
theorem c3_table_clamped_caller_unclamped :
    (∀ name : String,
        1 ≤ get_max_tokens name ∧ get_max_tokens name ≤ 16384) ∧
      (∀ (name : String) (dn : Option String) (v : Nat)
          (a b c : Option Bool),
        (Model.new name dn (some v) a b c).max_tokens = v) ∧
      (∀ (name : String) (dn : Option String) (a b c : Option Bool),
        (Model.new name dn none a b c).max_tokens = get_max_tokens name) := by
  refine ⟨fun name => ?_, fun _ _ _ _ _ _ => rfl, fun _ _ _ _ _ => rfl⟩
  unfold get_max_tokens clampTokens
  exact ⟨Nat.le_min.mpr ⟨Nat.le_max_right _ _, by decide⟩,
    Nat.min_le_right _ _⟩

/-- Claim C4, counterexample: the routing heuristic is textual — an
endpoint whose non-loopback host merely contains the word localhost is
routed to the raw-socket path when no credential is present, although it is
not a loop-back/local-host endpoint. -/
theorem c4_counterexample :
    selectTransport "http://mylocalhost.example.com" none
        = Transport.rawSocket ∧
      isLoopbackEndpointSpec "http://mylocalhost.example.com" = false := by
  decide

/-- Claim C4, amended: the raw-socket path is chosen exactly when no
credential is present and the endpoint URL passes the textual heuristic
(prefix http://localhost, prefix http://127.0.0.1, or scheme http:// with
the substring localhost anywhere in the URL); any credential forces the
HTTP-client path, but a non-loopback URL containing localhost in its host
name is also routed to the raw path. -/
theorem c4_routing_characterization :
    ∀ (url : String) (key : Option String),
      (selectTransport url key = Transport.rawSocket ↔
        isLocalUrl url = true ∧ key = none) ∧
        ∀ k : String, selectTransport url (some k) = Transport.httpClient := by
  intro url key
  constructor
  · unfold selectTransport
    cases key <;> cases h : isLocalUrl url <;> simp [h]
  · intro k
    unfold selectTransport
    cases h : isLocalUrl url <;> simp [h]

/-- Claim C5, counterexample: feeding the UTF-8 bytes of an accented letter
and a newline as one chunk frames the letter, but splitting the two bytes
of the letter across two chunks frames two replacement characters instead,
because each chunk is lossily decoded on its own; so the framed lines are
not independent of the chunk boundaries when a split falls inside a
multi-byte character. -/
theorem c5_counterexample :
    frameBytes [[0xC3, 0xA9, 0x0A]] = [[Char.ofNat 0xE9]] ∧
      frameBytes [[0xC3], [0xA9, 0x0A]] = [[replChar, replChar]] ∧
      frameBytes [[0xC3], [0xA9, 0x0A]] ≠ frameBytes [[0xC3, 0xA9, 0x0A]] := by
  refine ⟨by decide, by decide, by decide⟩

/-- Claim C5, amended: chunk-boundary independence holds for every split at
character boundaries — feeding any character-chunk decomposition through
the framer yields the same logical lines as feeding the whole text in one
call; only a split inside a multi-byte character (which the per-chunk lossy
decode garbles to replacement characters) can change the framed lines. -/
theorem c5_split_independence_char_level (chunks : List (List Char)) :
    frameLines chunks [] = frameLines [joinChunks chunks] [] := by
  rw [frameLines_eq_splitLines, frameLines_eq_splitLines]
  simp [joinChunks]

/-- Claim C6, counterexample: an Assistant message with no tool calls, no
images and no thinking text serializes the tool_calls and thinking keys
with a null value — only the images field carries the
skip_serializing_if attribute — contradicting the claim that every absent
optional field is omitted and never emitted as null. -/
theorem c6_counterexample :
    List.lookup "tool_calls"
        (serializeChatMessage (ChatMessage.assistant "hi" none none none))
        = some JVal.null ∧
      List.lookup "thinking"
        (serializeChatMessage (ChatMessage.assistant "hi" none none none))
        = some JVal.null := by
  exact ⟨rfl, rfl⟩

/-- Claim C6, amended: only the images fields of Assistant and User
messages are omitted when absent; an Assistant message's absent tool_calls
and thinking fields are serialized as null, and a present images payload is
serialized in full. -/
theorem c6_only_images_skipped :
    (∀ (c : String) (tc : Option (List OllamaToolCall)) (th : Option String),
        List.lookup "images"
            (serializeChatMessage (ChatMessage.assistant c tc none th))
            = none ∧
          List.lookup "tool_calls"
            (serializeChatMessage (ChatMessage.assistant c none none th))
            = some JVal.null ∧
          List.lookup "thinking"
            (serializeChatMessage (ChatMessage.assistant c tc none none))
            = some JVal.null ∧
          List.lookup "images"
            (serializeChatMessage
              (ChatMessage.assistant c tc (some ["i"]) th))
            = some (jsonOfImages ["i"])) ∧
      ∀ (c : String) (imgs : List String),
        List.lookup "images" (serializeChatMessage (ChatMessage.user c none))
            = none ∧
          List.lookup "images"
            (serializeChatMessage (ChatMessage.user c (some imgs)))
            = some (jsonOfImages imgs) := by
  exact ⟨fun _ _ _ => ⟨rfl, rfl, rfl, rfl⟩, fun _ _ => ⟨rfl, rfl⟩⟩

/-- Claim C7: a framed line that passes the empty and hex-marker filters
but fails the JSON decode is dropped and the loop continues — a body of
three newline-terminated lines whose middle line is malformed yields
exactly the deltas of the two well-formed lines, and no decode error
appears in the sequence (decode failures branch to continue; only transport
read errors can surface). -/
theorem c7_malformed_line_dropped
    (decode : List Char → Option ChatResponseDelta) (la lb lc : List Char)
    (d1 d2 : ChatResponseDelta)
    (ha : la.all (fun c => c != '\n') = true)
    (hb : lb.all (fun c => c != '\n') = true)
    (hc : lc.all (fun c => c != '\n') = true)
    (h1 : lineStep decode la = some d1)
    (hbE : (trimChars lb).isEmpty = false)
    (hbH : (trimChars lb).all isAsciiHexDigitB = false)
    (hbD : decode (trimChars lb) = none)
    (h2 : lineStep decode lc = some d2) :
    streamDeltas decode [la ++ '\n' :: (lb ++ '\n' :: (lc ++ ['\n']))] []
      = [d1, d2] := by
  have hstep : lineStep decode lb = none := by
    unfold lineStep keptLine
    simp [hbE, hbH, hbD]
  simp only [streamDeltas, splitLines, List.filterMap_nil, List.nil_append]
  rw [splitLines_cons_line la _ ha, splitLines_cons_line lb _ hb,
    splitLines_cons_line lc _ hc]
  simp [splitLines, List.filterMap_cons, h1, hstep, h2]

/-- Claim C7, witness: a malformed line between the two decodable lines x
and z yields exactly their two deltas. -/
theorem c7_witness :
    streamDeltas decodeSample [['x', '\n', '{', 'o', '\n', 'z', '\n']] []
      = [deltaX, deltaZ] :=
  c7_malformed_line_dropped decodeSample ['x'] ['{', 'o'] ['z'] deltaX deltaZ
    (by decide) (by decide) (by decide) rfl (by decide) (by decide) rfl rfl

/-- Claim C8: a framed line whose trimmed text consists solely of ASCII hex
digits — which includes the empty trimmed line, for which the all-test
holds vacuously — is skipped and never reaches the decoder: the per-line
step returns nothing for every decoder whatsoever. -/
theorem c8_hex_marker_skipped
    (decode : List Char → Option ChatResponseDelta) (line : List Char)
    (h : (trimChars line).all isAsciiHexDigitB = true) :
    lineStep decode line = none := by
  unfold lineStep keptLine
  simp [h]

/-- Claim C8, witness: the chunk-size marker 1a3f is skipped even for a
decoder that accepts every line. -/
theorem c8_witness :
    (trimChars "1a3f".data).all isAsciiHexDigitB = true ∧
      lineStep (fun _ => some deltaX) "1a3f".data = none :=
  ⟨by decide, c8_hex_marker_skipped (fun _ => some deltaX) "1a3f".data
    (by decide)⟩

/-- Claim C9: the unwrap on name.split(colon).next() in get_max_tokens
always succeeds — splitting any string yields at least one piece, namely
the text before the first colon — so get_max_tokens, and with it
Model::new, is total in the model name, the empty name and colon-free names
included. -/
theorem c9_get_max_tokens_total (name : String) :
    get_max_tokens_checked name = some (get_max_tokens name) := by
  unfold get_max_tokens_checked get_max_tokens familyOf
  rw [splitColon_head]

/-- Claim C10: every model produced by Model::new carries the indefinite
keep-alive policy, whatever the constructor arguments. -/
theorem c10_keep_alive_indefinite (name : String) (dn : Option String)
    (mt : Option Nat) (a b c : Option Bool) :
    (Model.new name dn mt a b c).keep_alive = some KeepAlive.indefinite :=
  rfl

end Ollama
